import Mathlib

/-!
Shallow embedding of the implicit member synthesis engine in
`lib/Sema/CodeSynthesis.cpp` (Swift semantic analysis), together with
theorems settling the specification claims about it.

Each definition mirrors one function of the source file and keeps its
name.  Machinery that the claims do not touch (source locations,
attribute plumbing, the type checker queue) is abstracted away; the
branching structure of every modelled function follows the C++ source
line by line.
-/

/-- The storage kinds of `AbstractStorageDecl` (AST/Decl.h), as matched
in `doesStorageNeedSetter`. -/
inductive StorageKind where
  | stored
  | storedWithTrivialAccessors
  | storedWithObservers
  | inheritedWithObservers
  | addressed
  | addressedWithTrivialAccessors
  | addressedWithObservers
  | computedWithMutableAddress
  | computed
deriving DecidableEq, Repr

/-- The nominal container of a storage declaration, as case-analysed in
`maybeAddMaterializeForSet`: a protocol (with its ObjC flag, and whether
the storage sits in a protocol extension), a class, an enum, or a struct
(with its Clang-import flag). -/
inductive ContainerKind where
  | protocolContainer (isObjC : Bool) (inProtocolExtension : Bool)
  | classContainer
  | enumContainer
  | structContainer (hasClangNode : Bool)
deriving DecidableEq, Repr

/-- The attributes of an `AbstractStorageDecl` consulted by the
synthesis entry points modelled here.  `container = none` models a
declaration context that is not a nominal type or nominal type
extension.  `overriddenHasMaterializeForSet = none` models
`getOverriddenDecl() == nullptr`; `some b` models an overridden decl
whose `getMaterializeForSetFunc()` is non-null iff `b`. -/
structure AbstractStorageDecl where
  storageKind : StorageKind
  isLet : Bool
  hasMutableAddressor : Bool
  hasParentInitializer : Bool
  container : Option ContainerKind
  isFinal : Bool
  isInvalid : Bool
  hasSetter : Bool
  hasMaterializeForSetFunc : Bool
  overriddenHasMaterializeForSet : Option Bool
deriving DecidableEq, Repr

/-- `doesStorageNeedSetter` (CodeSynthesis.cpp:757).  The function is
only called on storage currently lacking accessor functions; the kinds
that already have accessors (or are not stored) hit `llvm_unreachable`,
modelled as `none`. -/
def doesStorageNeedSetter (storage : AbstractStorageDecl) : Option Bool :=
  match storage.storageKind with
  | .stored => some (!storage.isLet)
  | .addressed => some storage.hasMutableAddressor
  | .storedWithTrivialAccessors => none
  | .storedWithObservers => none
  | .inheritedWithObservers => none
  | .addressedWithTrivialAccessors => none
  | .addressedWithObservers => none
  | .computedWithMutableAddress => none
  | .computed => none

/-- Counts of the accessor declarations created by one run of
`addTrivialAccessorsToStorage` (CodeSynthesis.cpp:799). -/
structure TrivialAccessorsResult where
  numGetters : Nat
  numSetters : Nat
  numMaterializeForSet : Nat
deriving DecidableEq, Repr

/-- `addTrivialAccessorsToStorage` (CodeSynthesis.cpp:799): creates one
getter always, a setter iff `doesStorageNeedSetter`, and a
materializeForSet iff a setter was created and the declaring context is
a nominal type or nominal-type extension (CodeSynthesis.cpp:849).
`none` models the unreachable storage kinds. -/
def addTrivialAccessorsToStorage (storage : AbstractStorageDecl) :
    Option TrivialAccessorsResult :=
  match doesStorageNeedSetter storage with
  | none => none
  | some needSetter =>
    some { numGetters := 1
           numSetters := if needSetter then 1 else 0
           numMaterializeForSet :=
             if needSetter && storage.container.isSome then 1 else 0 }

/-- `maybeAddMaterializeForSet` (CodeSynthesis.cpp:1251), as the
decision whether `addMaterializeForSet` is reached.  The early returns
and the container case analysis follow the source order. -/
def maybeAddMaterializeForSet (storage : AbstractStorageDecl) : Bool :=
  if storage.hasMaterializeForSetFunc then false
  else if !storage.hasSetter then false
  else if storage.isInvalid then false
  else
    match storage.container with
    | none => false
    | some (.protocolContainer isObjC inProtocolExtension) =>
      if isObjC then false
      else if inProtocolExtension then false
      else true
    | some .classContainer =>
      if storage.isFinal then
        match storage.overriddenHasMaterializeForSet with
        | none => false
        | some b => b
      else true
    | some .enumContainer => false
    | some (.structContainer hasClangNode) => !hasClangNode

/-- The condition of claim C2 (spec §8, written from the spec's words,
for comparison with the code): a setter exists, the declaring scope is a
type, and the scope is a non-ObjC protocol outside a protocol extension,
or a non-final class member, or a final class member overriding an
entity carrying a materializeForSet, or the overridden entity already
carries one. -/
def materializeForSetClaimedCond (storage : AbstractStorageDecl) : Bool :=
  storage.hasSetter && storage.container.isSome &&
  ((match storage.container with
    | some (.protocolContainer isObjC inProtocolExtension) =>
        !isObjC && !inProtocolExtension
    | _ => false) ||
   (storage.container = some .classContainer && !storage.isFinal) ||
   (storage.container = some .classContainer && storage.isFinal &&
      storage.overriddenHasMaterializeForSet = some true) ||
   (storage.overriddenHasMaterializeForSet = some true))

/-- The corrected condition, read off `maybeAddMaterializeForSet`
itself: additionally requires a valid entity with no materializeForSet
yet, restricts the overridden-carries-one disjunct to final class
members, and adds the branch the claim misses — a struct container not
imported from Clang. -/
def materializeForSetAmendedCond (storage : AbstractStorageDecl) : Bool :=
  !storage.hasMaterializeForSetFunc && storage.hasSetter &&
  !storage.isInvalid &&
  (match storage.container with
   | none => false
   | some (.protocolContainer isObjC inProtocolExtension) =>
       !isObjC && !inProtocolExtension
   | some .classContainer =>
       !storage.isFinal || storage.overriddenHasMaterializeForSet = some true
   | some .enumContainer => false
   | some (.structContainer hasClangNode) => !hasClangNode)

/-- Claim C1: for storage undergoing trivial-accessor synthesis (a
stored or addressed entity without accessor functions, where a `let`
can only be plain stored storage), exactly one getter is created, and a
setter is created iff the entity is mutable — a stored `var`, or
addressed storage with a mutable addressor — and is not a constant with
an inline initializer on a value type; the setter count is one or
zero accordingly. -/
theorem trivialAccessors_getter_setter_counts (storage : AbstractStorageDecl)
    (hkind : storage.storageKind = .stored ∨ storage.storageKind = .addressed)
    (hlet : storage.isLet = true → storage.storageKind = .stored) :
    ∃ r, addTrivialAccessorsToStorage storage = some r ∧
      r.numGetters = 1 ∧
      (r.numSetters = 1 ↔
        (((storage.storageKind = .stored ∧ storage.isLet = false) ∨
          (storage.storageKind = .addressed ∧
            storage.hasMutableAddressor = true)) ∧
         ¬(storage.isLet = true ∧ storage.hasParentInitializer = true))) ∧
      (r.numSetters = 1 ∨ r.numSetters = 0) := by
  obtain ⟨kind, il, hma, hpi, cont, fin, inv, hset, hmfs, ov⟩ := storage
  simp only at hkind hlet ⊢
  rcases hkind with hk | hk <;> subst hk
  · cases il <;> cases hma <;> cases hpi <;>
      exact ⟨_, rfl, rfl, by simp, by simp⟩
  · cases il
    · cases hma <;> cases hpi <;>
        exact ⟨_, rfl, rfl, by simp, by simp⟩
    · exact absurd (hlet rfl) (by simp)

/-- A concrete stored `var` in a non-imported struct, used as the
witness input for several claims. -/
def sampleStoredVar : AbstractStorageDecl :=
  { storageKind := .stored, isLet := false, hasMutableAddressor := false,
    hasParentInitializer := false,
    container := some (.structContainer false), isFinal := false,
    isInvalid := false, hasSetter := true,
    hasMaterializeForSetFunc := false,
    overriddenHasMaterializeForSet := none }

/-- Witness for C1 at a concrete stored `var` in a struct. -/
theorem trivialAccessors_getter_setter_counts_witness :
    ∃ r, addTrivialAccessorsToStorage sampleStoredVar = some r ∧
      r.numGetters = 1 ∧
      (r.numSetters = 1 ↔
        (((sampleStoredVar.storageKind = .stored ∧
            sampleStoredVar.isLet = false) ∨
          (sampleStoredVar.storageKind = .addressed ∧
            sampleStoredVar.hasMutableAddressor = true)) ∧
         ¬(sampleStoredVar.isLet = true ∧
            sampleStoredVar.hasParentInitializer = true))) ∧
      (r.numSetters = 1 ∨ r.numSetters = 0) :=
  trivialAccessors_getter_setter_counts sampleStoredVar (Or.inl rfl) (by decide)

/-- Claim C2 fails on the code: a settable stored property of a struct
not imported from Clang gets a materializeForSet from
`maybeAddMaterializeForSet` (CodeSynthesis.cpp:1290), yet the claim's
condition — non-ObjC protocol, non-final class, final override carrying
one, or overridden entity carrying one — is false for it. -/
theorem maybeAddMaterializeForSet_claim_counterexample :
    maybeAddMaterializeForSet sampleStoredVar = true ∧
    materializeForSetClaimedCond sampleStoredVar = false := by decide

/-- Claim C2 as amended: `maybeAddMaterializeForSet` adds an accessor
iff a setter exists, the entity is valid, none is present yet, and the
container is a non-ObjC protocol outside a protocol extension, a class
member that is non-final or a final override of an entity carrying a
materializeForSet, or a struct not imported from Clang; and the
trivial-accessor path adds one iff it created a setter and the
declaring context is a nominal type. -/
theorem maybeAddMaterializeForSet_condition (storage : AbstractStorageDecl) :
    maybeAddMaterializeForSet storage = materializeForSetAmendedCond storage ∧
    (∀ r, addTrivialAccessorsToStorage storage = some r →
      (r.numMaterializeForSet = 1 ↔
        (r.numSetters = 1 ∧ storage.container.isSome = true))) := by
  constructor
  · obtain ⟨kind, il, hma, hpi, cont, fin, inv, hset, hmfs, ov⟩ := storage
    rcases cont with _ | (⟨objc, ext⟩ | _ | _ | ⟨clang⟩) <;>
      cases hset <;> cases inv <;> cases hmfs <;>
      first
        | rfl
        | (cases objc <;> cases ext <;> rfl)
        | (cases fin <;> rcases ov with _ | b <;>
            first | rfl | (cases b <;> rfl))
  · intro r hr
    unfold addTrivialAccessorsToStorage at hr
    cases hns : doesStorageNeedSetter storage with
    | none => rw [hns] at hr; cases hr
    | some ns =>
      rw [hns] at hr
      injection hr with h
      subst h
      cases ns <;> cases hcont : storage.container.isSome <;> simp [hcont]

/-- Witness for the amended C2 at the concrete struct property. -/
theorem maybeAddMaterializeForSet_condition_witness :
    maybeAddMaterializeForSet sampleStoredVar =
      materializeForSetAmendedCond sampleStoredVar ∧
    (({ numGetters := 1, numSetters := 1, numMaterializeForSet := 1 } :
        TrivialAccessorsResult).numMaterializeForSet = 1 ↔
      (({ numGetters := 1, numSetters := 1, numMaterializeForSet := 1 } :
          TrivialAccessorsResult).numSetters = 1 ∧
        sampleStoredVar.container.isSome = true)) :=
  ⟨(maybeAddMaterializeForSet_condition sampleStoredVar).1,
   (maybeAddMaterializeForSet_condition sampleStoredVar).2
     { numGetters := 1, numSetters := 1, numMaterializeForSet := 1 }
     (by decide)⟩

/-- State of a lazy property's hidden optional backing storage
(`completeLazyVarImplementation`, CodeSynthesis.cpp:1187), together
with a count of how many times the original initializer expression has
been evaluated.  The initializer is abstracted as `initValue k`, the
value it produces on its `k`-th evaluation — distinct evaluations may
observe different external state, so re-evaluation is observable. -/
structure LazyState (α : Type) where
  backing : Option α
  initCount : Nat
deriving DecidableEq, Repr

/-- One execution of the getter body built by
`completeLazyPropertyGetter` (CodeSynthesis.cpp:1079): bind `tmp1` to a
load of the backing storage; if it holds a value, return it unwrapped
(early exit); otherwise evaluate the initializer into `tmp2` (bumping
the evaluation count), store `tmp2` directly to the backing storage,
and return `tmp2`. -/
def completeLazyPropertyGetter (initValue : Nat → α) (s : LazyState α) :
    α × LazyState α :=
  let tmp1 := s.backing
  match tmp1 with
  | some v => (v, s)
  | none =>
    let tmp2 := initValue s.initCount
    (tmp2, { backing := some tmp2, initCount := s.initCount + 1 })

/-- `n` successive reads through the synthesized lazy getter, returning
the list of values read and the final state. -/
def lazyGetterRun (initValue : Nat → α) :
    Nat → LazyState α → List α × LazyState α
  | 0, s => ([], s)
  | n+1, s =>
    let (v, s1) := completeLazyPropertyGetter initValue s
    let (vs, s2) := lazyGetterRun initValue n s1
    (v :: vs, s2)

/-- Once the backing storage is filled, every read returns the stored
value and the initializer is never evaluated again. -/
theorem lazyGetterRun_filled (initValue : Nat → α) (v : α) (c n : Nat) :
    lazyGetterRun initValue n ⟨some v, c⟩ =
      (List.replicate n v, ⟨some v, c⟩) := by
  induction n with
  | zero => rfl
  | succ n ih =>
    simp [lazyGetterRun, completeLazyPropertyGetter, ih, List.replicate]

/-- Claim C3: starting from an empty backing store with the initializer
evaluated `c` times so far, `n ≥ 1` reads through the synthesized lazy
getter evaluate the initializer exactly once (the count goes from `c`
to `c + 1`), every read (the first and all later ones) returns the
value that single evaluation produced, and the backing store holds that
same value afterwards. -/
theorem lazyProperty_initializer_evaluated_once (α : Type)
    (initValue : Nat → α) (n : Nat) (hn : 1 ≤ n) (c : Nat) :
    lazyGetterRun initValue n ⟨none, c⟩ =
      (List.replicate n (initValue c), ⟨some (initValue c), c + 1⟩) := by
  obtain ⟨m, rfl⟩ : ∃ m, n = m + 1 :=
    ⟨n - 1, (Nat.succ_pred_eq_of_pos hn).symm⟩
  simp [lazyGetterRun, completeLazyPropertyGetter, lazyGetterRun_filled,
        List.replicate]

/-- Witness for C3: three reads of a lazy property whose initializer
has visible side effects evaluate it once and all return its first
value. -/
theorem lazyProperty_initializer_evaluated_once_witness :
    lazyGetterRun (fun k => k + 10) 3 ⟨none, 0⟩ =
      (List.replicate 3 10, ⟨some 10, 1⟩) :=
  lazyProperty_initializer_evaluated_once Nat (fun k => k + 10) 3
    (by decide) 0

/-- Arguments a synthesized observing-setter statement can pass: the
setter's incoming `value` parameter, or the `tmp` immutable local
holding the old value. -/
inductive ObsArg where
  | incomingValue
  | oldValueTmp
deriving DecidableEq, Repr

/-- The statements `synthesizeObservingAccessors`
(CodeSynthesis.cpp:917) pushes into the setter body: bind the old value
into `tmp`, call `willSet`, store into the underlying storage, call
`didSet`. -/
inductive ObsStmt where
  | bindOldValue
  | callWillSet (arg : ObsArg)
  | storeValue (arg : ObsArg)
  | callDidSet (arg : ObsArg)
deriving DecidableEq, Repr, BEq

/-- The setter body built by `synthesizeObservingAccessors`, in source
push order: the old-value load iff a `didSet` exists, the `willSet`
call with the incoming value iff a `willSet` exists, the
direct-to-storage store, and the `didSet` call with `tmp` iff a
`didSet` exists. -/
def observingSetterBody (hasWillSet hasDidSet : Bool) : List ObsStmt :=
  (if hasDidSet then [ObsStmt.bindOldValue] else []) ++
  (if hasWillSet then [ObsStmt.callWillSet .incomingValue] else []) ++
  [ObsStmt.storeValue .incomingValue] ++
  (if hasDidSet then [ObsStmt.callDidSet .oldValueTmp] else [])

/-- Observable events of running a synthesized observing setter: each
hook call records the argument it receives and the storage contents at
the moment of the call. -/
inductive ObsEvent (α : Type) where
  | oldValueRead (value : α)
  | willSetCalled (arg : Option α) (storageNow : α)
  | storedEvent (value : α)
  | didSetCalled (arg : Option α) (storageNow : α)
deriving DecidableEq, Repr

/-- Dynamic state while running an observing setter body: the storage
contents and the `tmp` binding (absent until bound). -/
structure ObsState (α : Type) where
  storage : α
  tmp : Option α
deriving DecidableEq, Repr

/-- Evaluate a statement argument. -/
def evalObsArg (newValue : α) (st : ObsState α) : ObsArg → Option α
  | .incomingValue => some newValue
  | .oldValueTmp => st.tmp

/-- Small-step semantics of one observing-setter statement. -/
def runObsStmt (newValue : α) (st : ObsState α) :
    ObsStmt → ObsState α × List (ObsEvent α)
  | .bindOldValue =>
    ({ st with tmp := some st.storage }, [.oldValueRead st.storage])
  | .callWillSet arg =>
    (st, [.willSetCalled (evalObsArg newValue st arg) st.storage])
  | .storeValue arg =>
    match evalObsArg newValue st arg with
    | some v => ({ st with storage := v }, [.storedEvent v])
    | none => (st, [])
  | .callDidSet arg =>
    (st, [.didSetCalled (evalObsArg newValue st arg) st.storage])

/-- Run a list of observing-setter statements, collecting events. -/
def runObsStmts (newValue : α) :
    List ObsStmt → ObsState α → ObsState α × List (ObsEvent α)
  | [], st => (st, [])
  | s :: rest, st =>
    let (st1, evs1) := runObsStmt newValue st s
    let (st2, evs2) := runObsStmts newValue rest st1
    (st2, evs1 ++ evs2)

/-- Claim C4: the synthesized observing setter loads the old value
exactly once iff a `didSet` exists (never otherwise); the body order is
old-value load, `willSet` call with the incoming value, store, `didSet`
call with the temporary; and running the both-hooks body on storage
holding `v0` with incoming value `x` calls `willSet` with `x` while
storage still holds `v0`, then stores `x`, then calls `didSet` with
`v0` while storage holds `x`, reading the old value exactly once. -/
theorem observingSetter_order_and_old_value (hasWillSet hasDidSet : Bool)
    (α : Type) (v0 x : α) :
    ((observingSetterBody hasWillSet hasDidSet).count ObsStmt.bindOldValue =
      if hasDidSet then 1 else 0) ∧
    observingSetterBody true true =
      [.bindOldValue, .callWillSet .incomingValue,
       .storeValue .incomingValue, .callDidSet .oldValueTmp] ∧
    observingSetterBody true false =
      [.callWillSet .incomingValue, .storeValue .incomingValue] ∧
    observingSetterBody false true =
      [.bindOldValue, .storeValue .incomingValue,
       .callDidSet .oldValueTmp] ∧
    observingSetterBody false false = [.storeValue .incomingValue] ∧
    runObsStmts x (observingSetterBody true true) ⟨v0, none⟩ =
      (⟨x, some v0⟩,
       [.oldValueRead v0, .willSetCalled (some x) v0, .storedEvent x,
        .didSetCalled (some v0) x]) := by
  refine ⟨?_, rfl, rfl, rfl, rfl, rfl⟩
  cases hasDidSet <;> cases hasWillSet <;> rfl

/-- A synthesized type expression: a property's declared type, or an
optional wrapping of one. -/
inductive SynType where
  | base (id : Nat)
  | optional (t : SynType)
deriving DecidableEq, Repr

/-- The attributes of a stored property consulted by the memberwise
branch of `createImplicitConstructor` (CodeSynthesis.cpp:1394). -/
structure StoredProperty where
  name : Nat
  isImplicit : Bool
  isLet : Bool
  hasParentInitializer : Bool
  isLazy : Bool
  declaredType : SynType
deriving DecidableEq, Repr

/-- A parameter of the synthesized memberwise initializer. -/
structure MemberwiseParam where
  name : Nat
  paramType : SynType
deriving DecidableEq, Repr

/-- The parameter list built by the memberwise branch of
`createImplicitConstructor` (CodeSynthesis.cpp:1398-1427): iterate the
stored properties in declaration order, skip implicit ones, skip
`let`s that carry a parent initializer, and give a lazy property a
parameter of the optional-wrapped declared type. -/
def createImplicitConstructorParams :
    List StoredProperty → List MemberwiseParam
  | [] => []
  | var :: rest =>
    if var.isImplicit then createImplicitConstructorParams rest
    else if var.isLet && var.hasParentInitializer then
      createImplicitConstructorParams rest
    else
      { name := var.name,
        paramType := if var.isLazy then .optional var.declaredType
                     else var.declaredType } ::
        createImplicitConstructorParams rest

/-- A stored property receives a memberwise parameter iff it is not
implicit and not a `let` with a parent initializer. -/
def memberwiseEligible (var : StoredProperty) : Bool :=
  !var.isImplicit && !(var.isLet && var.hasParentInitializer)

/-- The memberwise parameter a single property produces. -/
def memberwiseParamFor (var : StoredProperty) : MemberwiseParam :=
  { name := var.name,
    paramType := if var.isLazy then .optional var.declaredType
                 else var.declaredType }

/-- Splitting the non-implicit properties into the skipped initialized
`let`s and the eligible rest preserves counts. -/
theorem memberwise_count_split (props : List StoredProperty) :
    (props.filter memberwiseEligible).length +
      (props.filter fun v =>
        !v.isImplicit && v.isLet && v.hasParentInitializer).length =
    (props.filter fun v => !v.isImplicit).length := by
  induction props with
  | nil => rfl
  | cons v rest ih =>
    cases hI : v.isImplicit <;> cases hL : v.isLet <;>
      cases hP : v.hasParentInitializer <;>
      simp [List.filter, memberwiseEligible, hI, hL, hP] <;> omega

/-- Claim C5: the memberwise initializer has one parameter per stored,
non-implicit property in declaration order, excluding `let`s with an
inline initializer; its count is the number of non-implicit stored
properties minus the number of excluded ones; and a lazy property's
parameter takes the optional-wrapped declared type. -/
theorem memberwiseInit_params (props : List StoredProperty) :
    createImplicitConstructorParams props =
      (props.filter memberwiseEligible).map memberwiseParamFor ∧
    (createImplicitConstructorParams props).length =
      (props.filter fun v => !v.isImplicit).length -
        (props.filter fun v =>
          !v.isImplicit && v.isLet && v.hasParentInitializer).length ∧
    (∀ var ∈ props, var.isLazy = true →
      (memberwiseParamFor var).paramType = .optional var.declaredType) := by
  have hmap : createImplicitConstructorParams props =
      (props.filter memberwiseEligible).map memberwiseParamFor := by
    induction props with
    | nil => rfl
    | cons v rest ih =>
      cases hI : v.isImplicit <;> cases hL : v.isLet <;>
        cases hP : v.hasParentInitializer <;>
        simp [createImplicitConstructorParams, List.filter,
              memberwiseEligible, memberwiseParamFor, hI, hL, hP, ih]
  refine ⟨hmap, ?_, ?_⟩
  · have hsplit := memberwise_count_split props
    rw [hmap, List.length_map]
    omega
  · intro var _ hlazy
    simp [memberwiseParamFor, hlazy]

/-- A parameter of an initializer or accessor, as consulted by
`buildArgumentForwardingExpr` (CodeSynthesis.cpp:397): its identity,
argument label (none = unlabelled), variadic-ness, and whether its type
is an `inout` type. -/
structure CtorParam where
  id : Nat
  label : Option Nat
  isVariadic : Bool
  isInOut : Bool
deriving DecidableEq, Repr

/-- The forwarding expression built for a parameter list: a bare
parameter reference, an `&`-wrapped reference for an `inout`
parameter, or a tuple of references with argument labels. -/
inductive FwdExpr where
  | paramRef (id : Nat)
  | inOutRef (id : Nat)
  | tupleExpr (args : List FwdExpr) (labels : List (Option Nat))

/-- The reference `buildArgumentForwardingExpr` builds for one
parameter: a `DeclRefExpr`, wrapped in an `InOutExpr` when the
parameter's type is an `inout` type. -/
def forwardRef (p : CtorParam) : FwdExpr :=
  if p.isInOut then .inOutRef p.id else .paramRef p.id

/-- The argument/label accumulation loop of
`buildArgumentForwardingExpr` (CodeSynthesis.cpp:403-415): fails with
`none` as soon as any parameter is variadic. -/
def buildForwardingRefs :
    List CtorParam → Option (List FwdExpr × List (Option Nat))
  | [] => some ([], [])
  | p :: rest =>
    if p.isVariadic then none
    else
      match buildForwardingRefs rest with
      | none => none
      | some (args, labels) => some (forwardRef p :: args, p.label :: labels)

/-- `buildArgumentForwardingExpr` (CodeSynthesis.cpp:397): `none` on a
variadic parameter; a single unlabelled argument stays bare; otherwise
a tuple of the references with their labels. -/
def buildArgumentForwardingExpr (params : List CtorParam) : Option FwdExpr :=
  match buildForwardingRefs params with
  | none => none
  | some ([a], none :: _) => some a
  | some (args, labels) => some (.tupleExpr args labels)

/-- The argument list a forwarding expression denotes: a tuple's
elements, or the single bare argument. -/
def forwardedArgList : FwdExpr → List FwdExpr
  | .tupleExpr args _ => args
  | .paramRef id => [.paramRef id]
  | .inOutRef id => [.inOutRef id]

/-- With no variadic parameter, the accumulation loop forwards every
parameter in order. -/
theorem buildForwardingRefs_eq (params : List CtorParam)
    (h : ∀ p ∈ params, p.isVariadic = false) :
    buildForwardingRefs params =
      some (params.map forwardRef, params.map CtorParam.label) := by
  induction params with
  | nil => rfl
  | cons p rest ih =>
    have hp : p.isVariadic = false := h p (List.mem_cons_self p rest)
    rw [buildForwardingRefs, hp,
        ih fun q hq => h q (List.mem_cons_of_mem p hq)]
    rfl

/-- A variadic parameter anywhere makes the accumulation loop fail. -/
theorem buildForwardingRefs_none (params : List CtorParam)
    (h : ∃ p ∈ params, p.isVariadic = true) :
    buildForwardingRefs params = none := by
  induction params with
  | nil => simp at h
  | cons p rest ih =>
    rcases h with ⟨q, hq, hv⟩
    rcases List.mem_cons.mp hq with rfl | hq2
    · simp [buildForwardingRefs, hv]
    · cases hp : p.isVariadic
      · simp [buildForwardingRefs, hp, ih ⟨q, hq2, hv⟩]
      · simp [buildForwardingRefs, hp]

/-- A variadic parameter anywhere makes `buildArgumentForwardingExpr`
return `none`. -/
theorem buildArgumentForwardingExpr_none (params : List CtorParam)
    (h : ∃ p ∈ params, p.isVariadic = true) :
    buildArgumentForwardingExpr params = none := by
  rw [buildArgumentForwardingExpr, buildForwardingRefs_none params h]

/-- With no variadic parameter, `buildArgumentForwardingExpr` succeeds
and forwards every parameter positionally, `inout` parameters as
`inout`. -/
theorem buildArgumentForwardingExpr_no_variadic (params : List CtorParam)
    (h : ∀ p ∈ params, p.isVariadic = false) :
    ∃ fwd, buildArgumentForwardingExpr params = some fwd ∧
      forwardedArgList fwd = params.map forwardRef := by
  rw [buildArgumentForwardingExpr, buildForwardingRefs_eq params h]
  rcases params with _ | ⟨p, _ | ⟨q, rest⟩⟩
  · exact ⟨.tupleExpr [] [], rfl, rfl⟩
  · rcases hl : p.label with _ | l
    · refine ⟨forwardRef p, by simp [hl], ?_⟩
      cases hio : p.isInOut <;> simp [forwardRef, hio, forwardedArgList]
    · exact ⟨.tupleExpr [forwardRef p] [some l], by simp [hl], rfl⟩
  · exact ⟨.tupleExpr _ _, rfl, rfl⟩

/-- The kind of override-initializer body requested,
`DesignatedInitKind` in TypeChecker.h. -/
inductive DesignatedInitKind where
  | stub
  | chaining
deriving DecidableEq, Repr

/-- The diagnostics the modelled functions can emit. -/
inductive DiagKind where
  | unsupportedSynthesizeInitVariadic
  | variadicSuperclassInitHere
  | missingUnimplementedInitRuntime
  | nscopyingDoesntConform
deriving DecidableEq, Repr

/-- The body of a synthesized override initializer: the stub body (a
call to the `_unimplemented_initializer` runtime failure path), or a
chaining body — a single super-qualified call to the ancestor
initializer with the forwarded arguments, wrapped in a `try`
expression iff `wrappedInTry`. -/
inductive CtorBody where
  | stubBody
  | chainingBody (args : FwdExpr) (wrappedInTry : Bool)

/-- The ancestor initializer attributes consulted by
`createDesignatedInitOverride` (CodeSynthesis.cpp:1502):
`isGenericType` models `getInitializerInterfaceType()`
being a `GenericFunctionType`. -/
structure SuperclassCtor where
  params : List CtorParam
  isGenericType : Bool
  isBodyThrowing : Bool

/-- `createStubBody` (CodeSynthesis.cpp:1468): without the
`_unimplemented_initializer` runtime decl, diagnose and leave the
constructor without a body; otherwise install the stub body. -/
def createStubBody (hasUnimplementedInitDecl : Bool) :
    Option CtorBody × List DiagKind :=
  if hasUnimplementedInitDecl then (some .stubBody, [])
  else (none, [.missingUnimplementedInitRuntime])

/-- `createDesignatedInitOverride` (CodeSynthesis.cpp:1502), as the
synthesized constructor's body (`none` in the outer `Option` models the
`return nullptr` for unrepresentable generic signatures) and the
diagnostics emitted. -/
def createDesignatedInitOverride (classHasGenericParams : Bool)
    (hasUnimplementedInitDecl : Bool) (superclassCtor : SuperclassCtor)
    (kind : DesignatedInitKind) : Option (Option CtorBody) × List DiagKind :=
  if superclassCtor.isGenericType || classHasGenericParams then (none, [])
  else
    match kind with
    | .stub =>
      let (body, diags) := createStubBody hasUnimplementedInitDecl
      (some body, diags)
    | .chaining =>
      match buildArgumentForwardingExpr superclassCtor.params with
      | none =>
        let (body, diags) := createStubBody hasUnimplementedInitDecl
        (some body,
         [.unsupportedSynthesizeInitVariadic, .variadicSuperclassInitHere]
           ++ diags)
      | some fwd =>
        (some (some (.chainingBody fwd superclassCtor.isBodyThrowing)), [])

/-- Claim C6: for a non-generic ancestor initializer with the runtime
stub hook available, a variadic ancestor parameter turns a requested
chaining body into a stub body with diagnostics emitted, and an
all-fixed-arity parameter list yields a chaining body that is a single
super call forwarding every parameter positionally (`inout` as
`inout`), wrapped in `try` iff the ancestor initializer's body can
throw. -/
theorem designatedInitOverride_variadic_and_chaining
    (superclassCtor : SuperclassCtor) (classHasGenericParams : Bool)
    (hng : superclassCtor.isGenericType = false)
    (hcg : classHasGenericParams = false) :
    ((∃ p ∈ superclassCtor.params, p.isVariadic = true) →
      createDesignatedInitOverride classHasGenericParams true
          superclassCtor .chaining =
        (some (some .stubBody),
         [.unsupportedSynthesizeInitVariadic, .variadicSuperclassInitHere])) ∧
    ((∀ p ∈ superclassCtor.params, p.isVariadic = false) →
      ∃ fwd, createDesignatedInitOverride classHasGenericParams true
          superclassCtor .chaining =
        (some (some (.chainingBody fwd superclassCtor.isBodyThrowing)),
         []) ∧
        forwardedArgList fwd = superclassCtor.params.map forwardRef) := by
  constructor
  · intro hvar
    unfold createDesignatedInitOverride
    rw [hng, hcg]
    simp only [Bool.or_self, Bool.false_eq_true, if_false,
      buildArgumentForwardingExpr_none superclassCtor.params hvar]
    rfl
  · intro hfix
    obtain ⟨fwd, hfwd, hargs⟩ :=
      buildArgumentForwardingExpr_no_variadic superclassCtor.params hfix
    refine ⟨fwd, ?_, hargs⟩
    unfold createDesignatedInitOverride
    rw [hng, hcg]
    simp only [Bool.or_self, Bool.false_eq_true, if_false, hfwd]

/-- An ancestor initializer with one variadic parameter. -/
def variadicSuperCtor : SuperclassCtor :=
  { params := [{ id := 0, label := some 0, isVariadic := true,
                 isInOut := false }],
    isGenericType := false, isBodyThrowing := false }

/-- An ancestor initializer with two fixed-arity parameters, the second
`inout` and unlabelled. -/
def fixedSuperCtor : SuperclassCtor :=
  { params := [{ id := 0, label := some 0, isVariadic := false,
                 isInOut := false },
               { id := 1, label := none, isVariadic := false,
                 isInOut := true }],
    isGenericType := false, isBodyThrowing := true }

/-- Witness for C6 at the two concrete ancestor initializers. -/
theorem designatedInitOverride_variadic_and_chaining_witness :
    createDesignatedInitOverride false true variadicSuperCtor .chaining =
      (some (some .stubBody),
       [.unsupportedSynthesizeInitVariadic, .variadicSuperclassInitHere]) ∧
    (∃ fwd, createDesignatedInitOverride false true fixedSuperCtor
        .chaining =
      (some (some (.chainingBody fwd fixedSuperCtor.isBodyThrowing)),
       []) ∧
      forwardedArgList fwd = fixedSuperCtor.params.map forwardRef) :=
  ⟨(designatedInitOverride_variadic_and_chaining variadicSuperCtor false
      rfl rfl).1
     ⟨{ id := 0, label := some 0, isVariadic := true, isInOut := false },
      by simp [variadicSuperCtor], rfl⟩,
   (designatedInitOverride_variadic_and_chaining fixedSuperCtor false
      rfl rfl).2
     (by intro p hp
         simp only [fixedSuperCtor, List.mem_cons, List.mem_singleton,
           List.not_mem_nil, or_false] at hp
         rcases hp with rfl | rfl <;> rfl)⟩

/-- Claim C8: an ancestor initializer whose type is a generic function
type, or a subclass with generic parameters of context, makes
`createDesignatedInitOverride` return no constructor and emit no
diagnostic. -/
theorem designatedInitOverride_generic_silent
    (superclassCtor : SuperclassCtor)
    (classHasGenericParams hasUnimplementedInitDecl : Bool)
    (kind : DesignatedInitKind)
    (h : superclassCtor.isGenericType = true ∨
         classHasGenericParams = true) :
    createDesignatedInitOverride classHasGenericParams
        hasUnimplementedInitDecl superclassCtor kind = (none, []) := by
  unfold createDesignatedInitOverride
  rcases h with h | h <;> simp [h]

/-- An ancestor initializer with a generic function type. -/
def genericSuperCtor : SuperclassCtor :=
  { params := [{ id := 0, label := none, isVariadic := false,
                 isInOut := false }],
    isGenericType := true, isBodyThrowing := false }

/-- Witness for C8 at a concrete generic ancestor initializer. -/
theorem designatedInitOverride_generic_silent_witness :
    createDesignatedInitOverride false true genericSuperCtor .chaining =
      (none, []) :=
  designatedInitOverride_generic_silent genericSuperCtor false true
    .chaining (Or.inl rfl)

/-- The accessor kinds `buildSubscriptIndexReference`
(CodeSynthesis.cpp:431) distinguishes when stripping non-index
parameters. -/
inductive AccessorKind where
  | isGetter
  | isSetter
  | isMaterializeForSet
deriving DecidableEq, Repr

/-- `buildSubscriptIndexReference` (CodeSynthesis.cpp:431): drop the
value/buffer parameter for every non-getter accessor, additionally drop
the callback-storage parameter for materializeForSet, and forward the
rest.  The C++ then asserts the forwarding expression is non-null, so
`none` here models that assertion firing in a checked build. -/
def buildSubscriptIndexReference (accessorKind : AccessorKind)
    (accessorParams : List CtorParam) : Option FwdExpr :=
  let paramsA := if accessorKind ≠ AccessorKind.isGetter
                 then accessorParams.drop 1 else accessorParams
  let paramsB := if accessorKind = AccessorKind.isMaterializeForSet
                 then paramsA.drop 1 else paramsA
  buildArgumentForwardingExpr paramsB

/-- The number of value/buffer parameters each accessor kind carries
before its cloned subscript index parameters (`createSetterPrototype`
adds `value`; `createMaterializeForSetPrototype` adds `buffer` and
`callbackStorage`). -/
def accessorValueBufferCount : AccessorKind → Nat
  | .isGetter => 0
  | .isSetter => 1
  | .isMaterializeForSet => 2

/-- Claim C10: inside a synthesized accessor of a subscript whose index
list contains a variadic parameter, the stripped forwarding expression
is null — the assertion in `buildSubscriptIndexReference` fires instead
of a graceful failure — whereas the same variadic forwarding failure in
the override-initializer path degrades to a diagnosed stub body rather
than a crash. -/
theorem subscriptIndexReference_variadic_asserts
    (accessorKind : AccessorKind) (pre indices : List CtorParam)
    (hpre : pre.length = accessorValueBufferCount accessorKind)
    (hvar : ∃ p ∈ indices, p.isVariadic = true) :
    buildSubscriptIndexReference accessorKind (pre ++ indices) = none ∧
    (∀ superclassCtor : SuperclassCtor,
      superclassCtor.isGenericType = false →
      (∃ p ∈ superclassCtor.params, p.isVariadic = true) →
      createDesignatedInitOverride false true superclassCtor .chaining =
        (some (some .stubBody),
         [.unsupportedSynthesizeInitVariadic,
          .variadicSuperclassInitHere])) := by
  constructor
  · have hdrop : (pre ++ indices).drop pre.length = indices :=
      List.drop_left pre indices
    cases accessorKind with
    | isGetter =>
      simp only [accessorValueBufferCount] at hpre
      have hnil : pre = [] := List.length_eq_zero.mp hpre
      subst hnil
      simpa [buildSubscriptIndexReference] using
        buildArgumentForwardingExpr_none indices hvar
    | isSetter =>
      simp only [accessorValueBufferCount] at hpre
      have h1 : (pre ++ indices).drop 1 = indices := by
        rw [← hpre]; exact hdrop
      simpa [buildSubscriptIndexReference, h1] using
        buildArgumentForwardingExpr_none indices hvar
    | isMaterializeForSet =>
      simp only [accessorValueBufferCount] at hpre
      have h1 : (pre ++ indices).drop 2 = indices := by
        rw [← hpre]; exact hdrop
      simpa [buildSubscriptIndexReference, h1] using
        buildArgumentForwardingExpr_none indices hvar
  · intro superclassCtor hng hv
    unfold createDesignatedInitOverride
    rw [hng]
    simp only [Bool.or_self, Bool.false_eq_true, if_false,
      buildArgumentForwardingExpr_none superclassCtor.params hv]
    rfl

/-- Witness for C10: a materializeForSet accessor of a subscript with a
variadic index parameter, against the override path for the concrete
variadic ancestor initializer. -/
theorem subscriptIndexReference_variadic_asserts_witness :
    buildSubscriptIndexReference .isMaterializeForSet
      ([{ id := 10, label := none, isVariadic := false, isInOut := false },
        { id := 11, label := none, isVariadic := false, isInOut := true }] ++
       [{ id := 12, label := some 3, isVariadic := true,
          isInOut := false }]) = none ∧
    (∀ superclassCtor : SuperclassCtor,
      superclassCtor.isGenericType = false →
      (∃ p ∈ superclassCtor.params, p.isVariadic = true) →
      createDesignatedInitOverride false true superclassCtor .chaining =
        (some (some .stubBody),
         [.unsupportedSynthesizeInitVariadic,
          .variadicSuperclassInitHere])) :=
  subscriptIndexReference_variadic_asserts .isMaterializeForSet
    [{ id := 10, label := none, isVariadic := false, isInOut := false },
     { id := 11, label := none, isVariadic := false, isInOut := true }]
    [{ id := 12, label := some 3, isVariadic := true, isInOut := false }]
    rfl
    ⟨{ id := 12, label := some 3, isVariadic := true, isInOut := false },
     by simp, rfl⟩

/-- `AccessSemantics` as passed through `buildStorageReference`. -/
inductive AccessSemantics where
  | ordinary
  | directToStorage
deriving DecidableEq, Repr

/-- `SelfAccessKind` (CodeSynthesis.cpp:452). -/
inductive SelfAccessKind where
  | peer
  | super
deriving DecidableEq, Repr

/-- The storage identity consulted by `buildStorageReference`: the
entity, the entity it overrides if any, and whether it is a
subscript. -/
structure StorageRefInfo where
  id : Nat
  overriddenId : Option Nat
  isSubscript : Bool
deriving DecidableEq, Repr

/-- The expression shapes `buildStorageReference` can build.  The index
forwarding of a subscript access is abstracted (it is the subject of
`buildSubscriptIndexReference`). -/
inductive RefExpr where
  | declRef (target : Nat) (semantics : AccessSemantics)
  | selfRef (selfDecl : Nat)
  | superRef (selfDecl : Nat)
  | memberRef (base : RefExpr) (target : Nat) (semantics : AccessSemantics)
  | subscriptRef (base : RefExpr) (target : Nat)
      (semantics : AccessSemantics)
deriving DecidableEq, Repr

/-- `buildSelfReference` (CodeSynthesis.cpp:463): a plain `self`
reference for Peer, a super-qualified one for Super. -/
def buildSelfReference (selfDecl : Nat) : SelfAccessKind → RefExpr
  | .peer => .selfRef selfDecl
  | .super => .superRef selfDecl

/-- `buildStorageReference` (CodeSynthesis.cpp:512): without a self
declaration, a direct reference to the entity; in Super mode with an
overridden entity, re-target to the overridden entity with ordinary
access semantics and a super-qualified self; otherwise fall back to
Peer and access the entity itself off `self`, keeping the caller's
semantics. -/
def buildStorageReference (selfDecl : Option Nat)
    (storage : StorageRefInfo) (semantics : AccessSemantics)
    (selfAccessKind : SelfAccessKind) : RefExpr :=
  match selfDecl with
  | none => .declRef storage.id semantics
  | some selfD =>
    let resolved : Nat × AccessSemantics × SelfAccessKind :=
      match selfAccessKind, storage.overriddenId with
      | .super, some overriddenId =>
        (overriddenId, .ordinary, .super)
      | .super, none => (storage.id, semantics, .peer)
      | .peer, _ => (storage.id, semantics, .peer)
    let selfDRE := buildSelfReference selfD resolved.2.2
    if storage.isSubscript then
      .subscriptRef selfDRE resolved.1 resolved.2.1
    else
      .memberRef selfDRE resolved.1 resolved.2.1

/-- Claim C7: a Super-mode storage reference from an accessor with a
self parameter targets the overridden ancestor entity through a
super-qualified self with ordinary access semantics when the entity
overrides one; when it overrides nothing the mode degrades to Peer —
the built expression targets the entity itself with the
caller-supplied semantics, as a direct reference when no self
parameter exists and as a member (or subscript) access off `self`
otherwise. -/
theorem storageReference_super_mode (selfDecl : Option Nat)
    (storage : StorageRefInfo) (semantics : AccessSemantics) :
    (∀ ovId, storage.overriddenId = some ovId → ∀ d, selfDecl = some d →
      buildStorageReference selfDecl storage semantics .super =
        (if storage.isSubscript then
          .subscriptRef (.superRef d) ovId .ordinary
         else .memberRef (.superRef d) ovId .ordinary)) ∧
    (storage.overriddenId = none →
      buildStorageReference selfDecl storage semantics .super =
        (match selfDecl with
         | none => .declRef storage.id semantics
         | some d =>
           if storage.isSubscript then
             .subscriptRef (.selfRef d) storage.id semantics
           else .memberRef (.selfRef d) storage.id semantics)) := by
  constructor
  · intro ovId hov d hd
    subst hd
    simp [buildStorageReference, hov, buildSelfReference]
  · intro hov
    cases selfDecl <;>
      simp [buildStorageReference, hov, buildSelfReference]

/-- Witness for C7: a non-subscript property with an overridden entity
accessed from an accessor with a self parameter, and one overriding
nothing. -/
theorem storageReference_super_mode_witness :
    buildStorageReference (some 0)
        { id := 5, overriddenId := some 3, isSubscript := false }
        .directToStorage .super =
      (if ({ id := 5, overriddenId := some 3, isSubscript := false } :
            StorageRefInfo).isSubscript then
        .subscriptRef (.superRef 0) 3 .ordinary
       else .memberRef (.superRef 0) 3 .ordinary) ∧
    buildStorageReference (some 0)
        { id := 5, overriddenId := none, isSubscript := false }
        .directToStorage .super =
      (match (some 0 : Option Nat) with
       | none => RefExpr.declRef 5 .directToStorage
       | some d =>
         if ({ id := 5, overriddenId := none, isSubscript := false } :
              StorageRefInfo).isSubscript then
           .subscriptRef (.selfRef d) 5 .directToStorage
         else .memberRef (.selfRef d) 5 .directToStorage) :=
  ⟨(storageReference_super_mode (some 0)
      { id := 5, overriddenId := some 3, isSubscript := false }
      .directToStorage).1 3 rfl 0 rfl,
   (storageReference_super_mode (some 0)
      { id := 5, overriddenId := none, isSubscript := false }
      .directToStorage).2 rfl⟩

/-- The facts about an `@NSCopying` property's type consulted by
`synthesizeCopyWithZoneCall` (CodeSynthesis.cpp:598): whether the
declared type is optional, whether the Foundation `NSCopying` protocol
lookup succeeds, and whether the (optional-stripped) underlying type
conforms to it. -/
structure NSCopyVarInfo where
  typeIsOptional : Bool
  nscopyingProtocolFound : Bool
  conformsToNSCopying : Bool
deriving DecidableEq, Repr

/-- The value-expression shapes the synthesized setter can store:
`val` is the incoming value expression unchanged. -/
inductive StoredValueExpr where
  | val
  | bindOptional (e : StoredValueExpr)
  | copyWithZoneCall (base : StoredValueExpr)
  | forcedCheckedCast (e : StoredValueExpr)
  | conditionalCheckedCast (e : StoredValueExpr)
  | optionalEvaluation (e : StoredValueExpr)
deriving DecidableEq, Repr

/-- `synthesizeCopyWithZoneCall` (CodeSynthesis.cpp:598): if the
`NSCopying` protocol is missing or the underlying type does not conform,
emit one diagnostic and return the incoming value unchanged; otherwise
build the `copyWithZone` call — bind-optional-chained and
conditionally cast under an optional evaluation when the declared type
is optional, force-cast otherwise. -/
def synthesizeCopyWithZoneCall (vd : NSCopyVarInfo) :
    StoredValueExpr × List DiagKind :=
  let isOptional := vd.typeIsOptional
  if !vd.nscopyingProtocolFound || !vd.conformsToNSCopying then
    (.val, [.nscopyingDoesntConform])
  else
    let v := if isOptional then StoredValueExpr.bindOptional .val
             else .val
    let call := StoredValueExpr.copyWithZoneCall v
    if !isOptional then
      (.forcedCheckedCast call, [])
    else
      (.optionalEvaluation (.conditionalCheckedCast call), [])

/-- The value `createPropertyStoreOrCallSuperclassSetter`
(CodeSynthesis.cpp:667) actually assigns: the incoming value, passed
through `synthesizeCopyWithZoneCall` iff the property carries the
`@NSCopying` attribute. -/
def createPropertyStoreValue (hasNSCopyingAttr : Bool)
    (vd : NSCopyVarInfo) : StoredValueExpr × List DiagKind :=
  if hasNSCopyingAttr then synthesizeCopyWithZoneCall vd else (.val, [])

/-- Claim C9: when the copying protocol is missing or the underlying
type does not conform, exactly one diagnostic is emitted and the
incoming value is stored unmodified; otherwise no diagnostic is
emitted and the stored value is the synthesized `copyWithZone` call,
optional-chained when the declared type is optional; and the setter
store applies this transformation exactly to `@NSCopying`
properties. -/
theorem nscopying_setter_value (vd : NSCopyVarInfo) :
    (¬(vd.nscopyingProtocolFound = true ∧
        vd.conformsToNSCopying = true) →
      synthesizeCopyWithZoneCall vd = (.val, [.nscopyingDoesntConform])) ∧
    (vd.nscopyingProtocolFound = true → vd.conformsToNSCopying = true →
      synthesizeCopyWithZoneCall vd =
        ((if vd.typeIsOptional then
            .optionalEvaluation (.conditionalCheckedCast
              (.copyWithZoneCall (.bindOptional .val)))
          else .forcedCheckedCast (.copyWithZoneCall .val)), [])) ∧
    createPropertyStoreValue true vd = synthesizeCopyWithZoneCall vd ∧
    createPropertyStoreValue false vd = (.val, []) := by
  obtain ⟨opt, found, conf⟩ := vd
  refine ⟨?_, ?_, rfl, rfl⟩
  · intro h
    cases found
    · cases conf <;> rfl
    · cases conf
      · rfl
      · exact absurd ⟨rfl, rfl⟩ h
  · intro hf hc
    subst hf; subst hc
    cases opt <;> rfl

/-- Witness for C9 at a non-conforming optional property and a
conforming non-optional one. -/
theorem nscopying_setter_value_witness :
    synthesizeCopyWithZoneCall
        { typeIsOptional := true, nscopyingProtocolFound := true,
          conformsToNSCopying := false } =
      (.val, [.nscopyingDoesntConform]) ∧
    synthesizeCopyWithZoneCall
        { typeIsOptional := false, nscopyingProtocolFound := true,
          conformsToNSCopying := true } =
      ((if ({ typeIsOptional := false, nscopyingProtocolFound := true,
              conformsToNSCopying := true } : NSCopyVarInfo).typeIsOptional
          then
            .optionalEvaluation (.conditionalCheckedCast
              (.copyWithZoneCall (.bindOptional .val)))
          else .forcedCheckedCast (.copyWithZoneCall .val)), []) :=
  ⟨(nscopying_setter_value
      { typeIsOptional := true, nscopyingProtocolFound := true,
        conformsToNSCopying := false }).1 (by decide),
   ((nscopying_setter_value
      { typeIsOptional := false, nscopyingProtocolFound := true,
        conformsToNSCopying := true }).2.1 rfl rfl)⟩

/-- A lazy stored `var`. -/
def lazyProp : StoredProperty :=
  { name := 2, isImplicit := false, isLet := false,
    hasParentInitializer := false, isLazy := true,
    declaredType := .base 0 }

/-- A concrete stored-property list: an implicit property, an
initialized `let`, a lazy `var`, and a plain `var`. -/
def sampleProps : List StoredProperty :=
  [{ name := 0, isImplicit := true, isLet := false,
     hasParentInitializer := false, isLazy := false,
     declaredType := .base 0 },
   { name := 1, isImplicit := false, isLet := true,
     hasParentInitializer := true, isLazy := false,
     declaredType := .base 1 },
   lazyProp,
   { name := 3, isImplicit := false, isLet := false,
     hasParentInitializer := false, isLazy := false,
     declaredType := .base 2 }]

/-- Witness for C5 at the concrete property list. -/
theorem memberwiseInit_params_witness :
    createImplicitConstructorParams sampleProps =
      (sampleProps.filter memberwiseEligible).map memberwiseParamFor ∧
    (createImplicitConstructorParams sampleProps).length =
      (sampleProps.filter fun v => !v.isImplicit).length -
        (sampleProps.filter fun v =>
          !v.isImplicit && v.isLet && v.hasParentInitializer).length ∧
    (memberwiseParamFor lazyProp).paramType =
      .optional lazyProp.declaredType :=
  ⟨(memberwiseInit_params sampleProps).1,
   (memberwiseInit_params sampleProps).2.1,
   (memberwiseInit_params sampleProps).2.2 lazyProp (by decide) rfl⟩
